import Mathlib

/-!
Verification of the quantum physics kernel in `src/quantum.rs` of the
spin-experiment repository.  The kernel's `f32` arithmetic is embedded
over the exact reals `ℝ`, with `nalgebra::Complex<f32>` embedded as `ℂ`.
Each Rust item is translated to a Lean definition of the same name, and
the spec's claims about them are settled as theorems below.
-/

open Complex (I)

noncomputable section

namespace Quantum

/-- A 2-component complex vector: `nalgebra::Vector2<Complex>`, the qubit
amplitudes of the spin state (`|↑⟩` and `|↓⟩` components along z). -/
@[ext]
structure SpinState where
  a : ℂ
  b : ℂ

/-- A 2×2 complex matrix: `nalgebra::Matrix2<Complex>`, row-major as in
`Matrix2::new(m00, m01, m10, m11)`. -/
structure Operator where
  m00 : ℂ
  m01 : ℂ
  m10 : ℂ
  m11 : ℂ

/-- A 3-component real vector: `nalgebra::Vector3<f32>`. -/
@[ext]
structure Vector3 where
  x : ℝ
  y : ℝ
  z : ℝ

/-- Componentwise scalar multiplication `v * s` on `Vector3`. -/
def Vector3.scale (v : Vector3) (s : ℝ) : Vector3 :=
  ⟨v.x * s, v.y * s, v.z * s⟩

/-- Euclidean magnitude of a `Vector3` (`nalgebra`'s `.magnitude()`). -/
def Vector3.magnitude (v : Vector3) : ℝ :=
  Real.sqrt (v.x ^ 2 + v.y ^ 2 + v.z ^ 2)

/-- `SZ_POSITIVE_STATE`: the fixed spin-up state `(1, 0)`. -/
def SZ_POSITIVE_STATE : SpinState :=
  ⟨Complex.mk 1 0, Complex.mk 0 0⟩

/-- `b_field(theta, b_field_strength)`:
`Vector3::new(theta.sin(), 0., theta.cos()) * b_field_strength`. -/
def b_field (theta b_field_strength : ℝ) : Vector3 :=
  (Vector3.mk (Real.sin theta) 0 (Real.cos theta)).scale b_field_strength

/-- The model constant `H_BAR: f32 = 2.`. -/
def H_BAR : ℝ := 2

/-- `SX_OPERATOR`: the Pauli-x matrix `[[0,1],[1,0]]`. -/
def SX_OPERATOR : Operator :=
  ⟨Complex.mk 0 0, Complex.mk 1 0, Complex.mk 1 0, Complex.mk 0 0⟩

/-- `SY_OPERATOR`: the Pauli-y matrix `[[0,-i],[i,0]]`. -/
def SY_OPERATOR : Operator :=
  ⟨Complex.mk 0 0, Complex.mk 0 (-1), Complex.mk 0 1, Complex.mk 0 0⟩

/-- `SZ_OPERATOR`: the Pauli-z matrix `[[1,0],[0,-1]]`. -/
def SZ_OPERATOR : Operator :=
  ⟨Complex.mk 1 0, Complex.mk 0 0, Complex.mk 0 0, Complex.mk (-1) 0⟩

/-- The conjugate-transpose of a column `SpinState`, a row vector:
`state.adjoint()`. -/
def SpinState.adjoint (s : SpinState) : SpinState :=
  ⟨starRingEnd ℂ s.a, starRingEnd ℂ s.b⟩

/-- Row-vector times matrix, the first product in
`state.adjoint() * op * state`. -/
def SpinState.rowMulOp (r : SpinState) (op : Operator) : SpinState :=
  ⟨r.a * op.m00 + r.b * op.m10, r.a * op.m01 + r.b * op.m11⟩

/-- Row-vector times column-vector, yielding the 1×1 scalar
(`.into_scalar()`). -/
def SpinState.rowMulCol (r s : SpinState) : ℂ :=
  r.a * s.a + r.b * s.b

/-- `expectation(state, op) = (state.adjoint() * op * state).into_scalar().re`. -/
def expectation (state : SpinState) (op : Operator) : ℝ :=
  (((state.adjoint).rowMulOp op).rowMulCol state).re

/-- `expi(t) = Complex::new(t.cos(), t.sin())`, i.e. `e^(it)`. -/
def expi (t : ℝ) : ℂ :=
  Complex.mk (Real.cos t) (Real.sin t)

/-- Scalar multiplication of a `SpinState` by a complex number
(`psi_1 * expi(...)`). -/
def SpinState.smulC (s : SpinState) (z : ℂ) : SpinState :=
  ⟨s.a * z, s.b * z⟩

/-- Componentwise subtraction of spin states. -/
def SpinState.subS (s t : SpinState) : SpinState :=
  ⟨s.a - t.a, s.b - t.b⟩

/-- Componentwise division of a `SpinState` by a complex scalar
(`/ Complex::from(2.)`). -/
def SpinState.divC (s : SpinState) (z : ℂ) : SpinState :=
  ⟨s.a / z, s.b / z⟩

/-- `psi(theta, b_field_strength, time)`: the evolved state
`(psi_1 * expi(omega*time) - psi_2 * expi(-omega*time)) / 2` with
`energy = b_field_strength * H_BAR / 2`, `omega = energy / H_BAR`,
`psi_1 = (cos θ + 1, sin θ)`, `psi_2 = (cos θ - 1, sin θ)`. -/
def psi (theta b_field_strength time : ℝ) : SpinState :=
  let energy := b_field_strength * H_BAR / 2
  let omega := energy / H_BAR
  let psi_1 : SpinState := ⟨((Real.cos theta + 1 : ℝ) : ℂ), ((Real.sin theta : ℝ) : ℂ)⟩
  let psi_2 : SpinState := ⟨((Real.cos theta - 1 : ℝ) : ℂ), ((Real.sin theta : ℝ) : ℂ)⟩
  ((psi_1.smulC (expi (omega * time))).subS (psi_2.smulC (expi (-omega * time)))).divC
    ((2 : ℝ) : ℂ)

/-- `spin_expectation(theta, b_field_strength, time)`: the Bloch vector
`(⟨Sx⟩, ⟨Sy⟩, ⟨Sz⟩)` of `psi(theta, b_field_strength, time)`. -/
def spin_expectation (theta b_field_strength time : ℝ) : Vector3 :=
  let wave := psi theta b_field_strength time
  ⟨expectation wave SX_OPERATOR, expectation wave SY_OPERATOR, expectation wave SZ_OPERATOR⟩

/-- `spin_expectation_analytical(theta, b_field_strength, time)`: the
independently-derived closed form, `x`-component only. -/
def spin_expectation_analytical (theta b_field_strength time : ℝ) : Vector3 :=
  let energy := b_field_strength * H_BAR / 1
  let omega := energy / H_BAR
  let x := (H_BAR / 2) * Real.sin (2 * theta) * (1 - 2 * Real.cos (-omega * time)) / 2
  ⟨x, 0, 0⟩

/-- Closed form of the evolved state's two components: with `ω = B/2`,
`psi = (cos ωt + i·cos θ·sin ωt, i·sin θ·sin ωt)`. -/
theorem psi_components (theta b time : ℝ) :
    psi theta b time =
      ⟨Complex.mk (Real.cos (b / 2 * time)) (Real.cos theta * Real.sin (b / 2 * time)),
       Complex.mk 0 (Real.sin theta * Real.sin (b / 2 * time))⟩ := by
  have hb : b * H_BAR / 2 / H_BAR = b / 2 := by
    rw [H_BAR]; ring
  refine SpinState.ext ?_ ?_ <;>
    · rw [Complex.ext_iff]
      constructor <;>
        · simp only [psi, SpinState.divC, SpinState.subS, SpinState.smulC, expi, hb, neg_mul,
            Real.cos_neg, Real.sin_neg, Complex.sub_re, Complex.sub_im, Complex.mul_re,
            Complex.mul_im, Complex.ofReal_re, Complex.ofReal_im, Complex.div_ofReal_re,
            Complex.div_ofReal_im]
          ring

/-- Sum of the squared moduli of the two amplitudes of a spin state. -/
def SpinState.normSq (s : SpinState) : ℝ :=
  Complex.normSq s.a + Complex.normSq s.b

/-- Application of an operator (2×2 matrix) to a column spin state. -/
def opApply (op : Operator) (s : SpinState) : SpinState :=
  ⟨op.m00 * s.a + op.m01 * s.b, op.m10 * s.a + op.m11 * s.b⟩

/-- Hermitian inner product `u† · v` of two spin states. -/
def innerC (u v : SpinState) : ℂ :=
  starRingEnd ℂ u.a * v.a + starRingEnd ℂ u.b * v.b

/-- Spec-side reference: `Re(state† · operator · state)`, the real part of
the Hermitian quadratic form (§4.4 of the spec). -/
def expectationSpec (state : SpinState) (op : Operator) : ℝ :=
  (innerC state (opApply op state)).re

/-- Spec-side reference: the state `(ψ₁·e^{iωt} − ψ₂·e^{−iωt})/2` with
`ω = strength/2`, `ψ₁ = (cos θ + 1, sin θ)`, `ψ₂ = (cos θ − 1, sin θ)`,
the phases written with the complex exponential. -/
def evolvedStateSpec (theta strength time : ℝ) : SpinState :=
  let omega := strength / 2
  let psi1 : SpinState := ⟨((Real.cos theta + 1 : ℝ) : ℂ), ((Real.sin theta : ℝ) : ℂ)⟩
  let psi2 : SpinState := ⟨((Real.cos theta - 1 : ℝ) : ℂ), ((Real.sin theta : ℝ) : ℂ)⟩
  ⟨(psi1.a * Complex.exp (I * ((omega * time : ℝ) : ℂ)) -
      psi2.a * Complex.exp (-(I * ((omega * time : ℝ) : ℂ)))) / 2,
   (psi1.b * Complex.exp (I * ((omega * time : ℝ) : ℂ)) -
      psi2.b * Complex.exp (-(I * ((omega * time : ℝ) : ℂ)))) / 2⟩

/-- Euler's formula specialised to a real argument, in `Complex.mk` form. -/
theorem exp_I_mul (x : ℝ) :
    Complex.exp (I * (x : ℂ)) = Complex.mk (Real.cos x) (Real.sin x) := by
  rw [mul_comm, Complex.exp_mul_I, ← Complex.ofReal_cos, ← Complex.ofReal_sin]
  apply Complex.ext <;> simp [Complex.cos_ofReal_re, Complex.sin_ofReal_re]

/-- Euler's formula for the negated real argument. -/
theorem exp_neg_I_mul (x : ℝ) :
    Complex.exp (-(I * (x : ℂ))) = Complex.mk (Real.cos x) (-Real.sin x) := by
  have h : -(I * (x : ℂ)) = I * ((-x : ℝ) : ℂ) := by push_cast; ring
  rw [h, exp_I_mul, Real.cos_neg, Real.sin_neg]

/-- The spec-side evolved state has the same closed-form components. -/
theorem evolvedStateSpec_components (theta b time : ℝ) :
    evolvedStateSpec theta b time =
      ⟨Complex.mk (Real.cos (b / 2 * time)) (Real.cos theta * Real.sin (b / 2 * time)),
       Complex.mk 0 (Real.sin theta * Real.sin (b / 2 * time))⟩ := by
  refine SpinState.ext ?_ ?_ <;>
    · rw [Complex.ext_iff]
      constructor <;>
        · simp only [evolvedStateSpec, exp_I_mul, exp_neg_I_mul, Complex.ext_iff,
            Complex.sub_re, Complex.sub_im, Complex.mul_re, Complex.mul_im,
            Complex.ofReal_re, Complex.ofReal_im, Complex.div_re, Complex.div_im,
            Complex.re_ofNat, Complex.im_ofNat, Complex.normSq_apply]
          ring

/-- Closed form of the three spin expectation components of the Bloch
vector, with `ω = b/2`. -/
theorem spin_expectation_components (theta b time : ℝ) :
    spin_expectation theta b time =
      ⟨2 * Real.cos theta * Real.sin theta * Real.sin (b / 2 * time) ^ 2,
       2 * Real.sin theta * Real.sin (b / 2 * time) * Real.cos (b / 2 * time),
       Real.cos (b / 2 * time) ^ 2 +
         (Real.cos theta ^ 2 - Real.sin theta ^ 2) * Real.sin (b / 2 * time) ^ 2⟩ := by
  ext <;>
    · simp only [spin_expectation, psi_components, expectation, SpinState.adjoint,
        SpinState.rowMulOp, SpinState.rowMulCol, SX_OPERATOR, SY_OPERATOR, SZ_OPERATOR,
        Complex.add_re, Complex.add_im, Complex.mul_re, Complex.mul_im,
        Complex.conj_re, Complex.conj_im]
      ring

/-- The Bloch vector returned by `spin_expectation` always has magnitude 1. -/
theorem spin_expectation_magnitude_one (theta b time : ℝ) :
    (spin_expectation theta b time).magnitude = 1 := by
  rw [spin_expectation_components, Vector3.magnitude]
  have key : (2 * Real.cos theta * Real.sin theta * Real.sin (b / 2 * time) ^ 2) ^ 2 +
      (2 * Real.sin theta * Real.sin (b / 2 * time) * Real.cos (b / 2 * time)) ^ 2 +
      (Real.cos (b / 2 * time) ^ 2 +
        (Real.cos theta ^ 2 - Real.sin theta ^ 2) * Real.sin (b / 2 * time) ^ 2) ^ 2 =
      (Real.cos (b / 2 * time) ^ 2 +
        Real.sin (b / 2 * time) ^ 2 * (Real.sin theta ^ 2 + Real.cos theta ^ 2)) ^ 2 := by
    ring
  dsimp only
  rw [key, Real.sin_sq_add_cos_sq, mul_one, Real.cos_sq_add_sin_sq, one_pow, Real.sqrt_one]

/-- Claim C1: for every theta, strength and time, `psi` returns the state
`(ψ₁·e^{iωt} − ψ₂·e^{−iωt})/2` with `ψ₁ = (cos θ + 1, sin θ)`,
`ψ₂ = (cos θ − 1, sin θ)` and `ω = (strength·ħ/2)/ħ = strength/2`. -/
theorem psi_matches_spec_formula (theta strength time : ℝ) :
    psi theta strength time = evolvedStateSpec theta strength time := by
  rw [psi_components, evolvedStateSpec_components]

/-- Claim C2: for every theta, strength and time, the state returned by
`psi` is normalized: the squared moduli of its two amplitudes sum to 1. -/
theorem psi_normalized (theta strength time : ℝ) :
    (psi theta strength time).normSq = 1 := by
  rw [psi_components, SpinState.normSq]
  dsimp only
  rw [Complex.normSq_mk, Complex.normSq_mk]
  have h1 := Real.sin_sq_add_cos_sq theta
  have h2 := Real.sin_sq_add_cos_sq (strength / 2 * time)
  nlinarith [h1, h2]

/-- Claim C3: for theta = π/2, the x-component of `spin_expectation`
agrees with the x-component of `spin_expectation_analytical` for all
strength and all times (exactly: both are 0). -/
theorem spin_expectation_x_matches_analytical_at_half_pi (strength time : ℝ) :
    (spin_expectation (Real.pi / 2) strength time).x =
      (spin_expectation_analytical (Real.pi / 2) strength time).x := by
  have h2 : 2 * (Real.pi / 2) = Real.pi := by ring
  rw [spin_expectation_components, spin_expectation_analytical]
  dsimp only
  rw [h2, Real.cos_pi_div_two, Real.sin_pi]
  ring

/-- Claim C4: for every fixed theta and strength, the magnitude of the
Bloch vector `spin_expectation theta strength t` is the same at any two
times: time evolution preserves the Bloch-vector length. -/
theorem spin_expectation_magnitude_constant (theta strength t1 t2 : ℝ) :
    (spin_expectation theta strength t1).magnitude =
      (spin_expectation theta strength t2).magnitude := by
  rw [spin_expectation_magnitude_one, spin_expectation_magnitude_one]

/-- Claim C5: for every theta, every strength ≠ 0 and every time, the
Bloch vector is periodic with period `2π/ω` where
`ω = strength·ħ/(2ħ)`. -/
theorem spin_expectation_periodic (theta strength time : ℝ) (h : strength ≠ 0) :
    spin_expectation theta strength
        (time + 2 * Real.pi / (strength * H_BAR / (2 * H_BAR))) =
      spin_expectation theta strength time := by
  have homega : strength / 2 * (time + 2 * Real.pi / (strength * H_BAR / (2 * H_BAR))) =
      strength / 2 * time + 2 * Real.pi := by
    rw [H_BAR]
    field_simp
    ring
  rw [spin_expectation_components, spin_expectation_components, homega,
    Real.sin_add_two_pi, Real.cos_add_two_pi]

/-- Witness for claim C5 at theta = 1, strength = 2, time = 3. -/
theorem spin_expectation_periodic_witness :
    spin_expectation 1 2 (3 + 2 * Real.pi / (2 * H_BAR / (2 * H_BAR))) =
      spin_expectation 1 2 3 :=
  spin_expectation_periodic 1 2 3 two_ne_zero

/-- Claim C6: for strength = 0, `psi` is independent of time: for every
theta and all times t1, t2, `psi theta 0 t1 = psi theta 0 t2`. -/
theorem psi_time_independent_zero_strength (theta t1 t2 : ℝ) :
    psi theta 0 t1 = psi theta 0 t2 := by
  simp [psi_components]

/-- Claim C7: for every theta and strength, `b_field` returns the vector
`(sin θ, 0, cos θ) * strength`, whose magnitude is `|strength|`. -/
theorem b_field_formula_and_magnitude (theta strength : ℝ) :
    b_field theta strength = ⟨Real.sin theta * strength, 0, Real.cos theta * strength⟩ ∧
      (b_field theta strength).magnitude = |strength| := by
  constructor
  · ext <;> simp [b_field, Vector3.scale]
  · have key : (Real.sin theta * strength) ^ 2 + (0 * strength) ^ 2 +
        (Real.cos theta * strength) ^ 2 =
        (Real.sin theta ^ 2 + Real.cos theta ^ 2) * strength ^ 2 := by
      ring
    rw [b_field, Vector3.scale, Vector3.magnitude]
    dsimp only
    rw [key, Real.sin_sq_add_cos_sq, one_mul, Real.sqrt_sq_eq_abs]

/-- Claim C8: in the concrete scenario theta = 0, strength = 1, time = 0:
the field is (0,0,1), the evolved state is (1,0), and the expectations
of Sz, Sx, Sy on that state are 1, 0 and 0 respectively. -/
theorem concrete_scenario_theta_zero :
    b_field 0 1 = ⟨0, 0, 1⟩ ∧ psi 0 1 0 = ⟨Complex.mk 1 0, Complex.mk 0 0⟩ ∧
      expectation (psi 0 1 0) SZ_OPERATOR = 1 ∧
      expectation (psi 0 1 0) SX_OPERATOR = 0 ∧
      expectation (psi 0 1 0) SY_OPERATOR = 0 := by
  have hpsi : psi 0 1 0 = ⟨Complex.mk 1 0, Complex.mk 0 0⟩ := by
    rw [psi_components]
    simp
  refine ⟨?_, hpsi, ?_, ?_, ?_⟩
  · ext <;> simp [b_field, Vector3.scale]
  all_goals
    rw [hpsi]
    simp [expectation, SpinState.adjoint, SpinState.rowMulOp, SpinState.rowMulCol,
      SX_OPERATOR, SY_OPERATOR, SZ_OPERATOR, Complex.ext_iff, Complex.mul_re,
      Complex.mul_im, Complex.add_re, Complex.add_im]

/-- Claim C9: for every state (unnormalized included) and every operator,
`expectation` computes `Re(state† · operator · state)`, and
`spin_expectation` is the triple of expectations of Sx, Sy, Sz on
`psi theta strength time`. -/
theorem expectation_is_quadratic_form (state : SpinState) (op : Operator)
    (theta strength time : ℝ) :
    expectation state op = expectationSpec state op ∧
      spin_expectation theta strength time =
        ⟨expectation (psi theta strength time) SX_OPERATOR,
         expectation (psi theta strength time) SY_OPERATOR,
         expectation (psi theta strength time) SZ_OPERATOR⟩ := by
  constructor
  · rw [expectation, expectationSpec, innerC, opApply, SpinState.adjoint,
      SpinState.rowMulOp, SpinState.rowMulCol]
    dsimp only
    congr 1
    ring
  · rfl

/-- Claim C10: for every theta and strength, `psi` at time 0 equals the
fixed spin-up state `SZ_POSITIVE_STATE = (1, 0)`. -/
theorem psi_at_time_zero_is_spin_up (theta strength : ℝ) :
    psi theta strength 0 = SZ_POSITIVE_STATE := by
  rw [psi_components, SZ_POSITIVE_STATE]
  simp

end Quantum
